import Mathlib

/-!
# Verification of the `stringify` rendering library

Shallow embedding of the repository's core (src/styles.rs, src/error.rs,
src/stringify.rs) and proofs about its behaviour.

Modelling conventions:
* Rust `usize` is modelled as `Nat`.  Overflow of `usize` arithmetic is
  modelled explicitly where a claim concerns it (the `Add` and `Sub`
  impls for `Style`): the `...Checked` variants model the
  overflow-checked semantics (a debug-build panic becomes `none`), while
  the `...Wrap` variants model the unchecked two's-complement wrapping
  semantics (`% 2^64`) of builds with overflow checks disabled.
* Rust `&'static str` is modelled as `String`.
* The output sink `W: Write` is, in every scenario the claims touch, a
  `String`/`Vec<u8>` buffer whose `write_all` never fails, so `IoError`
  is unreachable; renderers are modelled as functions returning
  `Except StringifyError String`, the text appended to the buffer on
  success or the first error raised (`?` aborts the Rust function at the
  first error, exactly as the `Except` bind does).
* A `BTreeMap`'s iteration is key-ordered and a `HashMap`'s follows its
  storage; both are modelled by the list of entries in iteration order.
-/

/-- Modelled from the spec: the repository's `src/newline.rs` (declared by
`mod newline;` in src/lib.rs) is not among the provided sources.  The spec
describes `NewlinePolicy` as "a two-state flag (`Add` / `Omit`) deciding
whether a newline precedes an indentation step"; the sources use it only
via equality comparison with `Newline::Add`. -/
inductive Newline where
  | Add : Newline
  | Omit : Newline
deriving DecidableEq, Repr

/-- src/error.rs: `StringifyError`.  The `IoError` payload (a wrapped
`std::io::Error`) is elided: for string-buffer sinks `write_all` never
fails, so the constructor is never produced by the modelled code. -/
inductive StringifyError where
  | IoError : StringifyError
  | StyleNotFound (name : String) : StringifyError
deriving DecidableEq, Repr

/-- src/styles.rs: `pub struct Style`. -/
structure Style where
  newline : Newline
  indent_level : Nat
  indent : String
deriving DecidableEq, Repr

/-- src/styles.rs: `Style::INDENT`, four spaces. -/
def Style.INDENT : String := "    "

/-- src/styles.rs: `Style::standard(newline, indent_level)`. -/
def Style.standard (newline : Newline) (indent_level : Nat) : Style :=
  { newline := newline, indent_level := indent_level, indent := Style.INDENT }

/-- src/styles.rs: `impl Default for Style`. -/
def Style.defaultStyle : Style :=
  { newline := Newline.Omit, indent_level := 0, indent := Style.INDENT }

/-- src/styles.rs: `Style::with_newline`. -/
def Style.with_newline (s : Style) (newline : Newline) : Style :=
  { newline := newline, indent_level := s.indent_level, indent := s.indent }

/-- src/styles.rs: `Style::with_indent_level`. -/
def Style.with_indent_level (s : Style) (indent_level : Nat) : Style :=
  { newline := s.newline, indent_level := indent_level, indent := s.indent }

/-- src/styles.rs: `impl ops::Add<usize> for Style`: a new `Style` with
`indent_level` increased by `rhs`, keeping `self`'s newline policy and
indentation unit.  This total function is the idealisation of the usize
`+` away from the overflow boundary; the renderers use it only for the
`end + 1` item step.  The boundary-precise models of the same impl are
`addNatChecked`/`addNatWrap` below. -/
def Style.addNat (s : Style) (rhs : Nat) : Style :=
  { newline := s.newline, indent_level := s.indent_level + rhs, indent := s.indent }

/-- src/styles.rs: `impl ops::Add<Style> for Style`: sums the two
`indent_level`s, keeping the left operand's newline policy and unit;
idealised away from the overflow boundary like `addNat`, with the
boundary-precise models in `addStyleChecked`/`addStyleWrap` below. -/
def Style.addStyle (s : Style) (rhs : Style) : Style :=
  { newline := s.newline, indent_level := s.indent_level + rhs.indent_level,
    indent := s.indent }

/-- The number of values of Rust's `usize` type (64-bit targets). -/
def USIZE : Nat := 2 ^ 64

/-- src/styles.rs: `impl ops::Add<usize> for Style`, computing
`self.indent_level + rhs` with Rust's built-in `usize` addition, under
the overflow-checked semantics (the default of debug builds): an
overflowing addition panics, modelled as `none`. -/
def Style.addNatChecked (s : Style) (rhs : Nat) : Option Style :=
  if s.indent_level + rhs < USIZE then
    some { newline := s.newline, indent_level := s.indent_level + rhs,
           indent := s.indent }
  else
    none

/-- src/styles.rs: `impl ops::Add<usize> for Style` under the unchecked
semantics (the default of release builds): the `usize` addition wraps
modulo `2^64`. -/
def Style.addNatWrap (s : Style) (rhs : Nat) : Style :=
  { newline := s.newline,
    indent_level := (s.indent_level + rhs) % USIZE,
    indent := s.indent }

/-- src/styles.rs: `impl ops::Add<Style> for Style`, computing
`self.indent_level + rhs.indent_level`, overflow-checked semantics. -/
def Style.addStyleChecked (s : Style) (rhs : Style) : Option Style :=
  if s.indent_level + rhs.indent_level < USIZE then
    some { newline := s.newline,
           indent_level := s.indent_level + rhs.indent_level,
           indent := s.indent }
  else
    none

/-- src/styles.rs: `impl ops::Add<Style> for Style`, wrapping semantics. -/
def Style.addStyleWrap (s : Style) (rhs : Style) : Style :=
  { newline := s.newline,
    indent_level := (s.indent_level + rhs.indent_level) % USIZE,
    indent := s.indent }

/-- src/styles.rs: `impl ops::Sub<usize> for Style`, computing
`self.indent_level - rhs` with Rust's built-in `usize` subtraction, under
the overflow-checked semantics (the default of debug builds): an
underflowing subtraction panics, modelled as `none`. -/
def Style.subNatChecked (s : Style) (rhs : Nat) : Option Style :=
  if rhs ≤ s.indent_level then
    some { newline := s.newline, indent_level := s.indent_level - rhs,
           indent := s.indent }
  else
    none

/-- src/styles.rs: `impl ops::Sub<usize> for Style` under the unchecked
semantics (the default of release builds): the `usize` subtraction wraps
modulo `2^64`. -/
def Style.subNatWrap (s : Style) (rhs : Nat) : Style :=
  { newline := s.newline,
    indent_level := (s.indent_level + (USIZE - rhs % USIZE)) % USIZE,
    indent := s.indent }

/-- src/styles.rs: `impl ops::Sub<Style> for Style`, computing
`self.indent_level - rhs.indent_level`, overflow-checked semantics. -/
def Style.subStyleChecked (s : Style) (rhs : Style) : Option Style :=
  if rhs.indent_level ≤ s.indent_level then
    some { newline := s.newline, indent_level := s.indent_level - rhs.indent_level,
           indent := s.indent }
  else
    none

/-- src/styles.rs: `impl ops::Sub<Style> for Style`, wrapping semantics. -/
def Style.subStyleWrap (s : Style) (rhs : Style) : Style :=
  { newline := s.newline,
    indent_level := (s.indent_level + (USIZE - rhs.indent_level % USIZE)) % USIZE,
    indent := s.indent }

/-- src/styles.rs: `pub struct Styles(BTreeMap<&'static str, Style>)`,
modelled as the association list of its (key-ordered, duplicate-free)
entries. -/
def Styles : Type := List (String × Style)

/-- `BTreeMap::get`: the value bound to `name`, if any. -/
def Styles.find? (t : Styles) (name : String) : Option Style :=
  match t with
  | [] => none
  | (k, v) :: rest => if k = name then some v else Styles.find? rest name

/-- src/styles.rs: `Styles::get`: `Ok(*style)` when the role is bound,
otherwise `Err(StringifyError::StyleNotFound { name })`. -/
def Styles.get (t : Styles) (name : String) : Except StringifyError Style :=
  match Styles.find? t name with
  | some style => Except.ok style
  | none => Except.error (StringifyError.StyleNotFound name)

/-- The `styles! { }` macro with no pairs: an empty table. -/
def Styles.empty : Styles := []

/-- The `styles! { k => v }` macro with one pair: a singleton table. -/
def Styles.single (k : String) (v : Style) : Styles := [(k, v)]

/-- The concatenation, in order, of a list of text pieces (the effect of a
loop of `write_all` calls on a string buffer). -/
def textConcat : List String → String
  | [] => ""
  | s :: rest => s ++ textConcat rest

/-- src/stringify.rs: `Stringify2::indent`, as the text it appends: if
`style.newline == Newline::Add` write a newline, then write `style.indent`
exactly `style.indent_level` times. -/
def indentText (style : Style) : String :=
  (if style.newline = Newline.Add then "\n" else "") ++
    textConcat (List.replicate style.indent_level style.indent)

/-- A `Stringify2` implementation for an element type, as its `stringify`
method: the text appended to the buffer, or the first error raised. -/
def Renderer (α : Type) : Type := α → Styles → Except StringifyError String

/-- src/stringify.rs: `Stringify2::stringify_field`: look up the `"name"`
role (propagating `StyleNotFound`), apply the indentation primitive with
that style, write the field name, write `"="`, then let the value
stringify itself with the same style table. -/
def stringifyField (fv : Renderer ν) (styles : Styles) (name : String)
    (value : ν) : Except StringifyError String := do
  let nameStyle ← Styles.get styles "name"
  let valueText ← fv value styles
  Except.ok (indentText nameStyle ++ name ++ "=" ++ valueText)

/-- src/stringify.rs: `Stringify2::stringify_primitive`: stringify with an
empty style table (`styles! { }`). -/
def stringifyPrimitive (f : Renderer α) (x : α) : Except StringifyError String :=
  f x Styles.empty

/-- src/stringify.rs: the entry loop shared verbatim by the `HashMap` and
`BTreeMap` impls of `Stringify2::stringify`: for each `(key, value)` in
iteration order, stringify the key with a fresh table binding only
`"key"` to `Style::standard(Newline::Add, start.indent_level + 1)`, write
`" : "`, stringify the value with a fresh table binding only `"value"` to
the same derived style, then write `","`. -/
def mapEntries (fk : Renderer κ) (fv : Renderer ν) (startS : Style) :
    List (κ × ν) → Except StringifyError String
  | [] => Except.ok ""
  | (key, value) :: rest => do
    let keyText ← fk key
      (Styles.single "key" (Style.standard Newline.Add (startS.indent_level + 1)))
    let valueText ← fv value
      (Styles.single "value" (Style.standard Newline.Add (startS.indent_level + 1)))
    let restText ← mapEntries fk fv startS rest
    Except.ok (keyText ++ " : " ++ valueText ++ "," ++ restText)

/-- src/stringify.rs: `impl<K, V> Stringify2 for BTreeMap<K, V>`: if empty
write `"BTreeMap {}"` and return; otherwise resolve `"start"`, indent with
it, write `"BTreeMap {"`, run the entry loop, then indent with
`Style::standard(Newline::Add, styles.get("end")?.indent_level + 1)` and
write `"}"`.  The `"end"` lookup happens after the loop, as in the source. -/
def btreeMapStringify (fk : Renderer κ) (fv : Renderer ν)
    (self : List (κ × ν)) (styles : Styles) : Except StringifyError String :=
  if self.isEmpty then Except.ok "BTreeMap \x7b\x7d" else do
    let startS ← Styles.get styles "start"
    let body ← mapEntries fk fv startS self
    let endS ← Styles.get styles "end"
    Except.ok (indentText startS ++ "BTreeMap \x7b" ++ body ++
      indentText (Style.standard Newline.Add (endS.indent_level + 1)) ++ "\x7d")

/-- src/stringify.rs: `impl<K, V> Stringify2 for HashMap<K, V>`: identical
to the `BTreeMap` impl except for the `"HashMap"` label; `self` is the
list of entries in whatever order the storage presents them. -/
def hashMapStringify (fk : Renderer κ) (fv : Renderer ν)
    (self : List (κ × ν)) (styles : Styles) : Except StringifyError String :=
  if self.isEmpty then Except.ok "HashMap \x7b\x7d" else do
    let startS ← Styles.get styles "start"
    let body ← mapEntries fk fv startS self
    let endS ← Styles.get styles "end"
    Except.ok (indentText startS ++ "HashMap \x7b" ++ body ++
      indentText (Style.standard Newline.Add (endS.indent_level + 1)) ++ "\x7d")

/-- src/stringify.rs: the item loop of `impl<T> Stringify2 for Vec<T>`:
for each item, indent with `end + 1` (the `Add<usize>` impl, so the item
indentation inherits `end`'s newline policy and unit), stringify the item
with the same style table `styles`, then write `","`. -/
def vecItems (f : Renderer α) (endS : Style) (styles : Styles) :
    List α → Except StringifyError String
  | [] => Except.ok ""
  | item :: rest => do
    let itemText ← f item styles
    let restText ← vecItems f endS styles rest
    Except.ok (indentText (Style.addNat endS 1) ++ itemText ++ "," ++ restText)

/-- src/stringify.rs: `impl<T> Stringify2 for Vec<T>`: if empty write
`"Vec []"` and return; otherwise resolve `"end"`, then `"start"` (in that
order), indent with the start style, write `"Vec ["`, run the item loop,
then indent with the end style and write `"]"`. -/
def vecStringify (f : Renderer α) (self : List α) (styles : Styles) :
    Except StringifyError String :=
  if self.isEmpty then Except.ok "Vec []" else do
    let endS ← Styles.get styles "end"
    let startS ← Styles.get styles "start"
    let body ← vecItems f endS styles self
    Except.ok (indentText startS ++ "Vec [" ++ body ++ indentText endS ++ "]")

/-- Modelled from the spec: src/ contains no `Stringify2` implementation
for integer leaf types (the integer impls present in src/lib.rs belong to
the superseded fixed-parameter `Stringify` trait).  Spec section 4.5:
leaf types "render via a direct textual conversion of the value with no
indentation step of their own ... and consult no roles from the style
table". -/
def natStringify : Renderer Nat :=
  fun n _styles => Except.ok (toString n)

/-- Helper: when every entry's key and value renderers succeed against the
singleton tables the map loop builds for them, the loop's output is the
ordered concatenation of `key-text ++ " : " ++ value-text ++ ","`. -/
theorem mapEntries_eq (fk : Renderer κ) (fv : Renderer ν) (startS : Style)
    (entries : List (κ × ν)) (gk : κ → String) (gv : ν → String)
    (h : ∀ kv ∈ entries,
      fk kv.1 (Styles.single "key"
        (Style.standard Newline.Add (startS.indent_level + 1))) =
          Except.ok (gk kv.1) ∧
      fv kv.2 (Styles.single "value"
        (Style.standard Newline.Add (startS.indent_level + 1))) =
          Except.ok (gv kv.2)) :
    mapEntries fk fv startS entries =
      Except.ok (textConcat (entries.map
        (fun kv => gk kv.1 ++ " : " ++ gv kv.2 ++ ","))) := by
  induction entries with
  | nil => rfl
  | cons kv rest ih =>
    obtain ⟨hk, hv⟩ := h kv (List.mem_cons_self kv rest)
    have hrest := ih (fun kv hm => h kv (List.mem_cons_of_mem _ hm))
    obtain ⟨k, v⟩ := kv
    simp only [mapEntries, List.map, textConcat] at hk hv hrest ⊢
    rw [hk, hv, hrest]
    rfl

/-- C1: for every role name absent from a style table, `Styles::get`
returns `StyleNotFound` carrying exactly that role name (it is a total
function returning a `Result`, so it neither panics nor falls back to a
default `Style`); for every bound role name it returns the bound style. -/
theorem C1_styles_get_spec (t : Styles) (name : String) :
    (Styles.find? t name = none →
      Styles.get t name = Except.error (StringifyError.StyleNotFound name)) ∧
    ∀ s : Style, Styles.find? t name = some s →
      Styles.get t name = Except.ok s := by
  constructor
  · intro h
    simp [Styles.get, h]
  · intro s h
    simp [Styles.get, h]

/-- C1 witness: the table binding only "start" yields `StyleNotFound "end"`
for "end" and the bound style for "start". -/
theorem C1_styles_get_spec_witness :
    Styles.get [("start", Style.defaultStyle)] "end" =
      Except.error (StringifyError.StyleNotFound "end") ∧
    Styles.get [("start", Style.defaultStyle)] "start" =
      Except.ok Style.defaultStyle :=
  ⟨(C1_styles_get_spec [("start", Style.defaultStyle)] "end").1 rfl,
   (C1_styles_get_spec [("start", Style.defaultStyle)] "start").2
     Style.defaultStyle rfl⟩

/-- C2 counterexample: with BOTH "start" and "end" bound to
{newline=Omit, indent_level=0, unit="    "}, rendering [1, 2] produces
"Vec [    1,    2,]" — not the claimed "Vec [\n    1,\n    2,\n]".  The
item indentation uses `end + 1` (the `Add<usize>` impl), which inherits
`end`'s `Omit` newline policy, so no newline precedes the items or the
closing bracket. -/
theorem C2_render_counterexample :
    vecStringify natStringify [1, 2]
      [("start", { newline := Newline.Omit, indent_level := 0, indent := "    " }),
       ("end", { newline := Newline.Omit, indent_level := 0, indent := "    " })] =
      Except.ok "Vec [    1,    2,]" ∧
    ("Vec [    1,    2,]" : String) ≠ "Vec [\n    1,\n    2,\n]" := by
  exact ⟨rfl, by decide⟩

/-- C2 amended: with both roles bound to the Omit style the output is
"Vec [    1,    2,]"; the spec's expected text "Vec [\n    1,\n    2,\n]"
is produced when "start" keeps newline=Omit but "end" has newline=Add
(both at indent_level 0 with the four-space unit). -/
theorem C2_render_amended :
    vecStringify natStringify [1, 2]
      [("start", { newline := Newline.Omit, indent_level := 0, indent := "    " }),
       ("end", { newline := Newline.Omit, indent_level := 0, indent := "    " })] =
      Except.ok "Vec [    1,    2,]" ∧
    vecStringify natStringify [1, 2]
      [("start", { newline := Newline.Omit, indent_level := 0, indent := "    " }),
       ("end", { newline := Newline.Add, indent_level := 0, indent := "    " })] =
      Except.ok "Vec [\n    1,\n    2,\n]" :=
  ⟨rfl, rfl⟩

/-- C3: every empty sequence/map renders as exactly "Vec []" /
"HashMap {}" / "BTreeMap {}" and succeeds, for every style table
(including the empty one and ones with arbitrary start/end indent levels):
the empty check precedes every table lookup and every indentation step, so
no indentation characters are emitted and no `StyleNotFound` can occur. -/
theorem C3_empty_render (f : Renderer α) (fk : Renderer κ) (fv : Renderer ν)
    (styles : Styles) :
    vecStringify f [] styles = Except.ok "Vec []" ∧
    hashMapStringify fk fv [] styles = Except.ok "HashMap \x7b\x7d" ∧
    btreeMapStringify fk fv [] styles = Except.ok "BTreeMap \x7b\x7d" :=
  ⟨rfl, rfl, rfl⟩

/-- C4: a non-empty map render emits, per entry, the key rendered against
a "key" role bound to (newline=Add, indent_level=start.indent_level+1),
the literal " : ", the value rendered against a "value" role derived the
same way, and a trailing comma after every entry including the last; after
the entries the closing brace is preceded by the indentation primitive
applied at end.indent_level + 1. -/
theorem C4_map_render_shape (fk : Renderer κ) (fv : Renderer ν)
    (entries : List (κ × ν)) (styles : Styles) (startS endS : Style)
    (gk : κ → String) (gv : ν → String)
    (hne : entries ≠ [])
    (hstart : Styles.get styles "start" = Except.ok startS)
    (hend : Styles.get styles "end" = Except.ok endS)
    (h : ∀ kv ∈ entries,
      fk kv.1 (Styles.single "key"
        (Style.standard Newline.Add (startS.indent_level + 1))) =
          Except.ok (gk kv.1) ∧
      fv kv.2 (Styles.single "value"
        (Style.standard Newline.Add (startS.indent_level + 1))) =
          Except.ok (gv kv.2)) :
    btreeMapStringify fk fv entries styles =
      Except.ok (indentText startS ++ "BTreeMap \x7b" ++
        textConcat (entries.map
          (fun kv => gk kv.1 ++ " : " ++ gv kv.2 ++ ",")) ++
        indentText (Style.standard Newline.Add (endS.indent_level + 1)) ++
        "\x7d") := by
  have hb := mapEntries_eq fk fv startS entries gk gv h
  cases entries with
  | nil => exact absurd rfl hne
  | cons kv rest =>
    simp [btreeMapStringify, hstart, hend, hb, Bind.bind, Except.bind]

/-- C4 witness: the one-entry map {1: 2} with default start/end styles. -/
theorem C4_map_render_shape_witness :
    btreeMapStringify natStringify natStringify [(1, 2)]
      [("start", Style.defaultStyle), ("end", Style.defaultStyle)] =
      Except.ok "BTreeMap \x7b1 : 2,\n    \x7d" := by
  have h := C4_map_render_shape natStringify natStringify [(1, 2)]
    [("start", Style.defaultStyle), ("end", Style.defaultStyle)]
    Style.defaultStyle Style.defaultStyle
    (fun k => toString k) (fun v => toString v)
    (by simp) rfl rfl (by intro kv hm; exact ⟨rfl, rfl⟩)
  exact h.trans rfl

/-- C5: the field helper writes, in order, the indentation primitive
applied with the style bound to the "name" role, the field name, the
literal "=", and the field value's own render output. -/
theorem C5_field_render (fv : Renderer ν) (styles : Styles) (name : String)
    (value : ν) (nameStyle : Style) (valueText : String)
    (hname : Styles.get styles "name" = Except.ok nameStyle)
    (hv : fv value styles = Except.ok valueText) :
    stringifyField fv styles name value =
      Except.ok (indentText nameStyle ++ name ++ "=" ++ valueText) := by
  simp [stringifyField, hname, hv, Bind.bind, Except.bind]

/-- C5 witness: field "count" with value 5 and the "name" role bound to
(newline=Add, indent_level=1, four-space unit) renders "\n    count=5". -/
theorem C5_field_render_witness :
    stringifyField natStringify
      (Styles.single "name" (Style.standard Newline.Add 1)) "count"
      (5 : Nat) =
      Except.ok "\n    count=5" := by
  have h := C5_field_render natStringify
    (Styles.single "name" (Style.standard Newline.Add 1)) "count" (5 : Nat)
    (Style.standard Newline.Add 1) "5" rfl rfl
  exact h.trans rfl

/-- C6 counterexample: neither quantified half of the claim holds for
every Style and every n.  At s = Style::default() (indent_level 0) and
n = 1, `s - n` does not return a Style with the indent level shifted by
n: with overflow checks the subtraction panics (no Style is produced),
and without them it wraps to 2^64 - 1.  Dually, at
s = Style::default().with_indent_level(usize::MAX) and n = 1, `s + n`
does not return a Style whose indent level is the sum: with overflow
checks the addition panics, and without them it wraps to 0, which is not
the sum. -/
theorem C6_style_arith_counterexample :
    Style.subNatChecked Style.defaultStyle 1 = none ∧
    (Style.subNatWrap Style.defaultStyle 1).indent_level = USIZE - 1 ∧
    Style.addNatChecked
      (Style.with_indent_level Style.defaultStyle (USIZE - 1)) 1 = none ∧
    (Style.addNatWrap
      (Style.with_indent_level Style.defaultStyle (USIZE - 1)) 1).indent_level
      = 0 ∧
    USIZE - 1 + 1 ≠ 0 := by
  refine ⟨rfl, by decide, by decide, by decide, by decide⟩

/-- C6 amended: `s + n` and `s + t` return a new Style whose indent level
is the sum, keeping the left operand's newline policy and indent unit,
whenever that sum stays within usize range (otherwise the usize addition
overflows: it panics under overflow checks and wraps without them, so no
Style carrying the sum is returned); `s - n` and `s - t` likewise return
the difference only when the subtrahend does not exceed s's indent level
(otherwise the subtraction underflows, see C7).  All four are pure: no
operand is mutated. -/
theorem C6_style_arith (s t : Style) (n : Nat) :
    (s.indent_level + n < USIZE →
      Style.addNatChecked s n = some
        { newline := s.newline, indent_level := s.indent_level + n,
          indent := s.indent }) ∧
    (s.indent_level + t.indent_level < USIZE →
      Style.addStyleChecked s t = some
        { newline := s.newline,
          indent_level := s.indent_level + t.indent_level,
          indent := s.indent }) ∧
    (n ≤ s.indent_level →
      Style.subNatChecked s n = some
        { newline := s.newline, indent_level := s.indent_level - n,
          indent := s.indent }) ∧
    (t.indent_level ≤ s.indent_level →
      Style.subStyleChecked s t = some
        { newline := s.newline,
          indent_level := s.indent_level - t.indent_level,
          indent := s.indent }) := by
  refine ⟨fun h => ?_, fun h => ?_, fun h => ?_, fun h => ?_⟩
  · simp [Style.addNatChecked, h]
  · simp [Style.addStyleChecked, h]
  · simp [Style.subNatChecked, h]
  · simp [Style.subStyleChecked, h]

/-- C6 witness: concrete arithmetic at s = standard(Add, 3),
t = standard(Omit, 1), n = 2, where every sum and difference stays in
range. -/
theorem C6_style_arith_witness :
    Style.addNatChecked (Style.standard Newline.Add 3) 2 = some
      { newline := Newline.Add, indent_level := 5, indent := Style.INDENT } ∧
    Style.addStyleChecked (Style.standard Newline.Add 3)
        (Style.standard Newline.Omit 1) = some
      { newline := Newline.Add, indent_level := 4, indent := Style.INDENT } ∧
    Style.subNatChecked (Style.standard Newline.Add 3) 2 = some
      { newline := Newline.Add, indent_level := 1, indent := Style.INDENT } ∧
    Style.subStyleChecked (Style.standard Newline.Add 3)
        (Style.standard Newline.Omit 1) = some
      { newline := Newline.Add, indent_level := 2, indent := Style.INDENT } := by
  have h := C6_style_arith (Style.standard Newline.Add 3)
    (Style.standard Newline.Omit 1) 2
  exact ⟨h.1 (by decide), h.2.1 (by decide), h.2.2.1 (by decide),
    h.2.2.2 (by decide)⟩

/-- C7 counterexample: at s = Style::default() and n = 1 the unchecked
(release-profile) subtraction silently wraps the indent level to
2^64 - 1: it neither saturates to zero nor signals anything, refuting
"fails fast deterministically ... never silently wraps" as a property of
the program across its legal compilation profiles. -/
theorem C7_sub_underflow_counterexample :
    (Style.subNatWrap Style.defaultStyle 1).indent_level = USIZE - 1 ∧
    USIZE - 1 ≠ 0 ∧
    Style.subNatChecked Style.defaultStyle 1 = none := by
  refine ⟨by decide, by decide, rfl⟩

/-- C7 amended: when n exceeds s's indent level, `s - n` underflows: with
overflow checks enabled (debug default) the subtraction panics — a defect
is signalled and no Style is produced — and with them disabled (release
default) it silently wraps to 2^64 - (n - s.indent_level), a huge nonzero
value; the code never saturates to zero.  Likewise `s - t` panics under
checks when t's indent level exceeds s's. -/
theorem C7_sub_underflow (s t : Style) (n : Nat)
    (h1 : s.indent_level < n) (h2 : n < USIZE) :
    Style.subNatChecked s n = none ∧
    (Style.subNatWrap s n).indent_level = USIZE - (n - s.indent_level) ∧
    0 < (Style.subNatWrap s n).indent_level ∧
    (s.indent_level < t.indent_level → Style.subStyleChecked s t = none) := by
  have hn : n % USIZE = n := Nat.mod_eq_of_lt h2
  have hwrap : (Style.subNatWrap s n).indent_level =
      USIZE - (n - s.indent_level) := by
    simp only [Style.subNatWrap, hn]
    rw [Nat.mod_eq_of_lt (by omega)]
    omega
  refine ⟨?_, hwrap, ?_, fun ht => ?_⟩
  · simp [Style.subNatChecked, Nat.not_le.2 h1]
  · rw [hwrap]
    omega
  · simp [Style.subStyleChecked, Nat.not_le.2 ht]

/-- C7 witness: underflow at s = Style::default(), t = standard(Omit, 1),
n = 1. -/
theorem C7_sub_underflow_witness :
    Style.subNatChecked Style.defaultStyle 1 = none ∧
    (Style.subNatWrap Style.defaultStyle 1).indent_level = USIZE - 1 ∧
    0 < (Style.subNatWrap Style.defaultStyle 1).indent_level ∧
    Style.subStyleChecked Style.defaultStyle
      (Style.standard Newline.Omit 1) = none := by
  have h := C7_sub_underflow Style.defaultStyle
    (Style.standard Newline.Omit 1) 1 (by decide) (by decide)
  exact ⟨h.1, h.2.1, h.2.2.1, h.2.2.2 (by decide)⟩

/-- C8: the primitive entry point renders with the empty style table.  On
any non-empty sequence it fails with `StyleNotFound "end"` (the first
role the Vec renderer resolves) and on any non-empty map with
`StyleNotFound "start"`; on the leaf integer renderer, which resolves no
roles, it succeeds with the value's decimal text. -/
theorem C8_primitive_entry (f : Renderer α) (fk : Renderer κ)
    (fv : Renderer ν) (xs : List α) (hmEntries bmEntries : List (κ × ν))
    (n : Nat) (hxs : xs ≠ []) (hhm : hmEntries ≠ []) (hbm : bmEntries ≠ []) :
    stringifyPrimitive (vecStringify f) xs =
      Except.error (StringifyError.StyleNotFound "end") ∧
    stringifyPrimitive (hashMapStringify fk fv) hmEntries =
      Except.error (StringifyError.StyleNotFound "start") ∧
    stringifyPrimitive (btreeMapStringify fk fv) bmEntries =
      Except.error (StringifyError.StyleNotFound "start") ∧
    stringifyPrimitive natStringify n = Except.ok (toString n) := by
  refine ⟨?_, ?_, ?_, rfl⟩
  · cases xs with
    | nil => exact absurd rfl hxs
    | cons a as => rfl
  · cases hmEntries with
    | nil => exact absurd rfl hhm
    | cons a as => rfl
  · cases bmEntries with
    | nil => exact absurd rfl hbm
    | cons a as => rfl

/-- C8 witness: concrete primitive renders of [1], {1: 2} and the leaf 5. -/
theorem C8_primitive_entry_witness :
    stringifyPrimitive (vecStringify natStringify) [1] =
      Except.error (StringifyError.StyleNotFound "end") ∧
    stringifyPrimitive (hashMapStringify natStringify natStringify)
      [(1, 2)] = Except.error (StringifyError.StyleNotFound "start") ∧
    stringifyPrimitive (btreeMapStringify natStringify natStringify)
      [(1, 2)] = Except.error (StringifyError.StyleNotFound "start") ∧
    stringifyPrimitive natStringify 5 = Except.ok "5" := by
  have h := C8_primitive_entry natStringify natStringify natStringify
    [1] [(1, 2)] [(1, 2)] 5 (by simp) (by simp) (by simp)
  exact ⟨h.1, h.2.1, h.2.2.1, h.2.2.2.trans rfl⟩

/-- C9: the map renderers stringify each key against a freshly built
table binding only "key" and each value against one binding only "value";
hence a key or value that itself resolves any other role — here a
non-empty nested Vec, which resolves "end" — fails with
`StyleNotFound "end"` even though the outer table binds both "start" and
"end". -/
theorem C9_child_table_isolation (fk : Renderer κ) (fv : Renderer ν)
    (f g : Renderer α) (styles : Styles) (startS endS : Style)
    (k : κ) (vs : List α) (keyText : String) (restA : List (κ × List α))
    (ks : List α) (v : ν) (restB : List (List α × ν))
    (hstart : Styles.get styles "start" = Except.ok startS)
    (hend : Styles.get styles "end" = Except.ok endS)
    (hk : fk k (Styles.single "key"
      (Style.standard Newline.Add (startS.indent_level + 1))) =
        Except.ok keyText)
    (hvs : vs ≠ []) (hks : ks ≠ []) :
    btreeMapStringify fk (vecStringify f) ((k, vs) :: restA) styles =
      Except.error (StringifyError.StyleNotFound "end") ∧
    btreeMapStringify (vecStringify g) fv ((ks, v) :: restB) styles =
      Except.error (StringifyError.StyleNotFound "end") ∧
    hashMapStringify fk (vecStringify f) ((k, vs) :: restA) styles =
      Except.error (StringifyError.StyleNotFound "end") ∧
    hashMapStringify (vecStringify g) fv ((ks, v) :: restB) styles =
      Except.error (StringifyError.StyleNotFound "end") := by
  have hvrender : vecStringify f vs (Styles.single "value"
      (Style.standard Newline.Add (startS.indent_level + 1))) =
      Except.error (StringifyError.StyleNotFound "end") := by
    cases vs with
    | nil => exact absurd rfl hvs
    | cons a as => rfl
  have hkrender : vecStringify g ks (Styles.single "key"
      (Style.standard Newline.Add (startS.indent_level + 1))) =
      Except.error (StringifyError.StyleNotFound "end") := by
    cases ks with
    | nil => exact absurd rfl hks
    | cons a as => rfl
  refine ⟨?_, ?_, ?_, ?_⟩
  · simp [btreeMapStringify, mapEntries, hstart, hk, hvrender,
      Bind.bind, Except.bind]
  · simp [btreeMapStringify, mapEntries, hstart, hkrender,
      Bind.bind, Except.bind]
  · simp [hashMapStringify, mapEntries, hstart, hk, hvrender,
      Bind.bind, Except.bind]
  · simp [hashMapStringify, mapEntries, hstart, hkrender,
      Bind.bind, Except.bind]

/-- C9 witness: {7: [1]} and {[1]: 7} with start/end bound in the outer
table still fail with `StyleNotFound "end"`. -/
theorem C9_child_table_isolation_witness :
    btreeMapStringify natStringify (vecStringify natStringify) [(7, [1])]
      [("start", Style.defaultStyle), ("end", Style.defaultStyle)] =
      Except.error (StringifyError.StyleNotFound "end") ∧
    btreeMapStringify (vecStringify natStringify) natStringify [([1], 7)]
      [("start", Style.defaultStyle), ("end", Style.defaultStyle)] =
      Except.error (StringifyError.StyleNotFound "end") ∧
    hashMapStringify natStringify (vecStringify natStringify) [(7, [1])]
      [("start", Style.defaultStyle), ("end", Style.defaultStyle)] =
      Except.error (StringifyError.StyleNotFound "end") ∧
    hashMapStringify (vecStringify natStringify) natStringify [([1], 7)]
      [("start", Style.defaultStyle), ("end", Style.defaultStyle)] =
      Except.error (StringifyError.StyleNotFound "end") := by
  have h := C9_child_table_isolation natStringify natStringify
    natStringify natStringify
    [("start", Style.defaultStyle), ("end", Style.defaultStyle)]
    Style.defaultStyle Style.defaultStyle
    7 [1] "7" [] [1] 7 [] rfl rfl rfl (by simp) (by simp)
  exact h

/-- C10: every style the map renderers derive internally — the per-entry
"key"/"value" styles and the closing-brace style — is built with
`Style::standard` and so carries the default four-space unit
`Style::INDENT`; a custom unit `u` supplied in the caller's start/end
styles shows up only in the opening indentation (`indentText` of the
start style) and never in the entry styles or the closing-brace
indentation, which is "\n" followed by `end.indent_level + 1` copies of
`Style::INDENT` for every `u`. -/
theorem C10_internal_indent_unit (fk : Renderer κ) (fv : Renderer ν)
    (entries : List (κ × ν)) (gk : κ → String) (gv : ν → String)
    (nl1 nl2 : Newline) (l1 l2 : Nat) (u : String)
    (hne : entries ≠ [])
    (h : ∀ kv ∈ entries,
      fk kv.1 (Styles.single "key" (Style.standard Newline.Add (l1 + 1))) =
        Except.ok (gk kv.1) ∧
      fv kv.2 (Styles.single "value" (Style.standard Newline.Add (l1 + 1))) =
        Except.ok (gv kv.2)) :
    (Style.standard Newline.Add (l1 + 1)).indent = Style.INDENT ∧
    btreeMapStringify fk fv entries
      [("start", ⟨nl1, l1, u⟩), ("end", ⟨nl2, l2, u⟩)] =
      Except.ok (indentText ⟨nl1, l1, u⟩ ++ "BTreeMap \x7b" ++
        textConcat (entries.map
          (fun kv => gk kv.1 ++ " : " ++ gv kv.2 ++ ",")) ++
        ("\n" ++ textConcat (List.replicate (l2 + 1) Style.INDENT)) ++
        "\x7d") ∧
    hashMapStringify fk fv entries
      [("start", ⟨nl1, l1, u⟩), ("end", ⟨nl2, l2, u⟩)] =
      Except.ok (indentText ⟨nl1, l1, u⟩ ++ "HashMap \x7b" ++
        textConcat (entries.map
          (fun kv => gk kv.1 ++ " : " ++ gv kv.2 ++ ",")) ++
        ("\n" ++ textConcat (List.replicate (l2 + 1) Style.INDENT)) ++
        "\x7d") := by
  have hb := mapEntries_eq fk fv ⟨nl1, l1, u⟩ entries gk gv h
  cases entries with
  | nil => exact absurd rfl hne
  | cons kv rest =>
    refine ⟨rfl, ?_, ?_⟩
    · simp [btreeMapStringify, Styles.get, Styles.find?, hb,
        Bind.bind, Except.bind, indentText, Style.standard]
    · simp [hashMapStringify, Styles.get, Styles.find?, hb,
        Bind.bind, Except.bind, indentText, Style.standard]

/-- C10 witness: with a one-character tab unit in the caller's styles the
tab appears only in the opening indentation; keys, values and the closing
brace still use the four-space `Style::INDENT`. -/
theorem C10_internal_indent_unit_witness :
    btreeMapStringify natStringify natStringify [(1, 2)]
      [("start", ⟨Newline.Omit, 1, "\t"⟩), ("end", ⟨Newline.Omit, 0, "\t"⟩)] =
      Except.ok "\tBTreeMap \x7b1 : 2,\n    \x7d" ∧
    hashMapStringify natStringify natStringify [(1, 2)]
      [("start", ⟨Newline.Omit, 1, "\t"⟩), ("end", ⟨Newline.Omit, 0, "\t"⟩)] =
      Except.ok "\tHashMap \x7b1 : 2,\n    \x7d" := by
  have h := C10_internal_indent_unit natStringify natStringify [(1, 2)]
    (fun k => toString k) (fun v => toString v)
    Newline.Omit Newline.Omit 1 0 "\t" (by simp)
    (by intro kv hm; exact ⟨rfl, rfl⟩)
  exact ⟨h.2.1.trans rfl, h.2.2.trans rfl⟩
